import Mathlib

/-!
Shallow embedding of the result-extraction pipeline of `o3soil/sra/one_d_eff.py`
(classes `SRA1D` and `O3SRAOutputs`), covering recorder registration
(`O3SRAOutputs.start_recorders`), result reduction (`O3SRAOutputs.results_to_dict`)
and the dynamic stepping loop (`SRA1D.execute_dynamic`).

Conventions of the embedding:
* machine floats become exact rationals `ℚ`;
* numpy arrays become `List (List ℚ)` (row-major) and numpy slicing / cumsum /
  transpose are modelled by executable list functions below;
* recorder handles are inert descriptions (`Recorder`); the data a handle has
  captured when it is polled is supplied by an explicit capture function
  `Recorder → List (List ℚ)` (2-D collect) or `Recorder → List ℚ` (1-D collect),
  since the solver that fills the buffers is external to the repository;
* Python dicts (insertion ordered, unique keys) become association lists with a
  replace-or-append update `dictSet`;
* raised exceptions become `Except String` / an `Option String` error slot
  (`results_to_dict` keeps the partially built dict when it raises, which the
  model mirrors).
* `start_recorders` is modelled with its `sn_xy` flag fixed to `False`, the
  value used at the single call site in `SRA1D.execute_dynamic`.
-/

namespace O3Soil

/-- 2-D raw sample matrix. -/
abbrev Mat := List (List ℚ)

/-- A solver node; only the coordinates are relevant to the output pipeline
(`node.y` is the depth coordinate, ≤ 0 going down). -/
structure Node where
  x : ℚ
  y : ℚ
deriving DecidableEq, Repr

instance : Inhabited Node := ⟨⟨0, 0⟩⟩

/-- A solver element as seen by the output pipeline: its material type string
(`ele.mat.type`) and whether it is an `SSPquad`/`SSPquadUP` element (checked by
the `assert` in the `TAU` branch of `start_recorders`). -/
structure Ele where
  matType : String
  isSSP : Bool
deriving DecidableEq, Repr

instance : Inhabited Ele := ⟨⟨"", true⟩⟩

/-- The value of one entry of the `outs` request dict: either the string
`'all'` or an explicit list of target depths. -/
inductive OutSpec
  | all
  | depths (ds : List ℚ)
deriving DecidableEq, Repr

/-- A recorder handle, identified by what `start_recorders` created it from. -/
inductive Recorder
  | nodesToArray (nodes : List Node) (resType : String)
  | nodeToArray (node : Node) (resType : String)
  | elementsToArray (eles : List Ele) (argVal : String)
  | elementToArray (ele : Ele) (argVal : String)
deriving DecidableEq, Repr

/-- One value of the `self.ods` dict: a single batched handle or a list of
single-location handles. -/
inductive OdsEntry
  | batched (r : Recorder)
  | listOf (rs : List Recorder)
deriving DecidableEq, Repr

abbrev Ods := List (String × OdsEntry)

/-- Python-dict assignment `d[k] = v` on an insertion-ordered association list:
replace in place if the key exists, else append. -/
def dictSet {β : Type} : List (String × β) → String → β → List (String × β)
  | [], k, v => [(k, v)]
  | (k', v') :: rest, k, v =>
      if k' = k then (k, v) :: rest else (k', v') :: dictSet rest k v

/-- `np.argmin(abs(l - t))`: index of the first element of `l` minimising the
absolute difference to `t` (`0` on the empty list). -/
def argminAbs (t : ℚ) : List ℚ → Nat
  | [] => 0
  | d :: rest =>
      if rest = [] then 0
      else if |rest.getD (argminAbs t rest) 0 - t| < |d - t| then argminAbs t rest + 1
      else 0

/-- `node_depths` as computed in `start_recorders`: the `y` coordinate of each
left-column node (`sn[:, 0]`). -/
def nodeDepthsOf (sn : List (Node × Node)) : List ℚ := sn.map (fun p => p.1.y)

/-- `ele_depths = (node_depths[1:] + node_depths[:-1]) / 2`. -/
def eleDepthsOf (sn : List (Node × Node)) : List ℚ :=
  List.zipWith (fun a b => (a + b) / 2) (nodeDepthsOf sn).tail (nodeDepthsOf sn).dropLast

/-- `sn.flatten('C')` for the `[n_node_rows, 2]` node array: row-major
interleaving `[L0, R0, L1, R1, ...]`. -/
def flattenC (sn : List (Node × Node)) : List Node :=
  sn.flatMap (fun p => [p.1, p.2])

/-- One iteration of the `for otype in outs` loop of
`O3SRAOutputs.start_recorders` (with `sn_xy=False`).  The accumulator carries
the `ods` dict under construction and the list of every recorder allocated so
far (in allocation order).  Mirrors the source faithfully, including the
`outs['ACCX']` lookup in the explicit-depth branch shared by `'ACCX'` and
`'DISPX'`, the `assert isinstance(ele, SSPquad/SSPquadUP)` in the `'TAU'`
branch, the absence of any explicit-depth branch for `'TAUX'`/`'STRSX'`, and
the `'DISPX' in outs` skip in the `'STRSX'` branch. -/
def srStep (outsAll : List (String × OutSpec)) (sn : List (Node × Node)) (eles : List Ele)
    (acc : Ods × List Recorder) (kv : String × OutSpec) :
    Except String (Ods × List Recorder) :=
  let otype := kv.1
  let spec := kv.2
  let ods := acc.1
  let created := acc.2
  let nodeDepths := nodeDepthsOf sn
  let eleDepths := eleDepthsOf sn
  let nodes := sn.map (fun p => p.1)
  if otype = "ACCX" ∨ otype = "DISPX" then
    match spec with
    | .all =>
        if otype = "ACCX" then
          let r := Recorder.nodesToArray nodes "accel"
          .ok (dictSet ods "ACCX" (.batched r), created ++ [r])
        else
          let r := Recorder.nodesToArray nodes "disp"
          .ok (dictSet ods "DISPX" (.batched r), created ++ [r])
    | .depths _ =>
        -- the source indexes `outs['ACCX']` here even when `otype == 'DISPX'`
        match List.lookup "ACCX" outsAll with
        | none => .error "KeyError"
        | some .all => .error "TypeError"
        | some (.depths ds) =>
            let rs := ds.map (fun dep =>
              Recorder.nodeToArray (sn.getD (argminAbs dep nodeDepths) default).1 "accel")
            .ok (dictSet ods "ACCX" (.listOf rs), created ++ rs)
  else if otype = "TAU" then
    if eles.all (fun e => e.isSSP) then
      match spec with
      | .all =>
          let r := Recorder.elementsToArray eles "stress"
          .ok (dictSet (dictSet ods "TAU" (.listOf [])) "TAU" (.batched r), created ++ [r])
      | .depths ds =>
          let rs := ds.map (fun dep =>
            Recorder.elementToArray (eles.getD (argminAbs dep eleDepths) default) "stress")
          .ok (dictSet (dictSet ods "TAU" (.listOf [])) "TAU" (.listOf rs), created ++ rs)
    else .error "AssertionError"
  else if otype = "TAUX" then
    match spec with
    | .all =>
        let r := Recorder.nodesToArray (flattenC sn) "reaction"
        .ok (dictSet ods "TAUX" (.batched r), created ++ [r])
    | .depths _ => .ok (ods, created)
  else if otype = "STRS" then
    match spec with
    | .all =>
        let r := Recorder.elementsToArray eles "strain"
        .ok (dictSet (dictSet ods "STRS" (.listOf [])) "STRS" (.batched r), created ++ [r])
    | .depths ds =>
        let rs := ds.map (fun dep =>
          Recorder.elementToArray (eles.getD (argminAbs dep eleDepths) default) "strain")
        .ok (dictSet (dictSet ods "STRS" (.listOf [])) "STRS" (.listOf rs), created ++ rs)
  else if otype = "STRSX" then
    match spec with
    | .all =>
        if (List.lookup "DISPX" outsAll).isSome then .ok (ods, created)
        else
          let r := Recorder.nodesToArray nodes "disp"
          .ok (dictSet ods "DISPX" (.batched r), created ++ [r])
    | .depths _ => .ok (ods, created)
  else .ok (ods, created)

/-- `O3SRAOutputs.start_recorders` (with `sn_xy=False`): fold `srStep` over the
request dict, returning the `ods` dict and the recorders allocated. -/
def startRecorders (outs : List (String × OutSpec)) (sn : List (Node × Node))
    (eles : List Ele) : Except String (Ods × List Recorder) :=
  outs.foldlM (srStep outs sn eles) ([], [])

/-- Number of displacement recorders in an allocation list. -/
def countDispRecorders (rs : List Recorder) : Nat :=
  rs.countP (fun r =>
    match r with
    | .nodesToArray _ resType => resType = "disp"
    | .nodeToArray _ resType => resType = "disp"
    | _ => false)

/-! ## Array primitives used by `results_to_dict` (numpy semantics on lists) -/

/-- numpy transpose `.T` of a (rectangular) matrix: column `j` of the input
becomes row `j` of the output; the number of columns is read off the first
row, as numpy does for a well-formed 2-D array. -/
def transposeD (m : Mat) : Mat :=
  (List.range (m.headD []).length).map (fun j => m.map (fun row => row.getD j 0))

/-- `l[::2]`: elements at even indices. -/
def evens {α : Type} : List α → List α
  | [] => []
  | [a] => [a]
  | a :: _ :: rest => a :: evens rest

/-- `l[1::2]`: elements at odd indices. -/
def odds {α : Type} : List α → List α
  | [] => []
  | _ :: rest => evens rest

/-- Elementwise binary operation on two matrices (numpy broadcasting of two
equal-shape 2-D arrays). -/
def rowOp (f : ℚ → ℚ → ℚ) (m1 m2 : Mat) : Mat :=
  List.zipWith (List.zipWith f) m1 m2

/-- Helper for `np.cumsum(_, axis=0)`: running row totals given the total of
the rows already consumed. -/
def cumRowsAux (acc : List ℚ) : Mat → Mat
  | [] => []
  | r :: rest =>
      let s := List.zipWith (· + ·) acc r
      s :: cumRowsAux s rest

/-- `np.cumsum(m, axis=0)`. -/
def cumRows : Mat → Mat
  | [] => []
  | r :: rest => r :: cumRowsAux r rest

/-- Elementwise negation of a matrix. -/
def negRows (m : Mat) : Mat := m.map (List.map (fun x => -x))

/-- The `'TAUX'` reduction of `results_to_dict` on the transposed reaction
matrix `vals` (`[2 * n_node_rows, n_times]`, rows interleaved left/right):
`f_static = -np.cumsum(vals[::2] - vals[1::2], axis=0)[:-1]`,
`f_dyn = vals[::2] + vals[1::2]`, `f_dyn_av = (f_dyn[1:] + f_dyn[:-1]) / 2`,
result `(f_dyn_av + f_static) / area`. -/
def tauxCore (vals : Mat) (area : ℚ) : Mat :=
  let fStatic := (negRows (cumRows (rowOp (· - ·) (evens vals) (odds vals)))).dropLast
  let fDyn := rowOp (· + ·) (evens vals) (odds vals)
  let fDynAv := rowOp (fun a b => (a + b) / 2) fDyn.tail fDyn.dropLast
  rowOp (fun a b => (a + b) / area) fDynAv fStatic

/-- The `'STRSX'` reduction of `results_to_dict` on the node depth vector and
the transposed displacement matrix `vals` (`[n_node_rows, n_times]`):
`d_incs = depths[1:] - depths[:-1]`,
result `(vals[1:] - vals[:-1]) / d_incs[:, np.newaxis]`. -/
def strsxCore (depths : List ℚ) (vals : Mat) : Mat :=
  let dIncs := List.zipWith (· - ·) depths.tail depths.dropLast
  List.zipWith (fun (row : List ℚ) (dinc : ℚ) => row.map (fun v => v / dinc))
    (rowOp (· - ·) vals.tail vals.dropLast) dIncs

/-! ## The recorder-options schema table -/

/-- One row of the recorder-options CSV read by `results_to_dict` via
`o3.recorder.load_recorder_options()` / `pd.read_csv`; the `outs` column is
stored already split on `'-'`. -/
structure SchemaRow where
  mat : String
  form : String
  recorder : String
  outsStr : List String
deriving DecidableEq, Repr

instance : Inhabited SchemaRow := ⟨⟨"", "", "", []⟩⟩

/-- `df[(df['mat'] == mat_type) & (df['form'] == 'PlaneStrain')]` followed by
`dfe[dfe['recorder'] == recKind]`. -/
def schemaMatches (df : List SchemaRow) (matType recKind : String) : List SchemaRow :=
  (df.filter (fun r => r.mat == matType && r.form == "PlaneStrain")).filter
    (fun r => r.recorder == recKind)

/-- The per-element loop of the batched `'TAU'`/`'STRS'` reduction, carrying
`cur_ind`.  `assert len(dfe) == 1` becomes the `"SchemaLookupError"` case (the
name §7 of the spec gives the raised `AssertionError`); `outs.index(ostr)`
raises `"ValueError"` when the channel name is absent.  When the lookup
succeeds the selected raw channel is row `cur_ind + oind` of `vals` and
`cur_ind` advances by the width of the element's channel block. -/
def schemaReduceGo (df : List SchemaRow) (recKind chanName : String) (vals : Mat) :
    List Ele → Nat → Except String (List (List ℚ))
  | [], _ => .ok []
  | e :: rest, curInd =>
      if (schemaMatches df e.matType recKind).length = 1 then
        match List.indexOf? chanName
            ((schemaMatches df e.matType recKind).getD 0 default).outsStr with
        | none => .error "ValueError"
        | some oind =>
            match schemaReduceGo df recKind chanName vals rest
                (curInd + ((schemaMatches df e.matType recKind).getD 0 default).outsStr.length) with
            | .error msg => .error msg
            | .ok out => .ok (vals.getD (curInd + oind) [] :: out)
      else .error "SchemaLookupError"

/-- Batched `'TAU'`/`'STRS'` reduction over the elements in registration
order. -/
def schemaReduce (df : List SchemaRow) (recKind chanName : String) (eles : List Ele)
    (vals : Mat) : Except String (List (List ℚ)) :=
  schemaReduceGo df recKind chanName vals eles 0

/-! ## `results_to_dict` -/

/-- A value of the reduced result dict: a 2-D `[location, time]` array or the
1-D synthetic `'time'` array. -/
inductive OVal
  | arr2 (m : Mat)
  | arr1 (v : List ℚ)
deriving DecidableEq, Repr

/-- `np.arange(0, n) * rec_dt`. -/
def timeArr (n : Nat) (recDt : ℚ) : List ℚ :=
  (List.range n).map (fun (k : Nat) => (k : ℚ) * recDt)

/-- One iteration of the `for otype in items` loop of `results_to_dict`.
Returns `(raised exception, entry for key otype, number of collect() calls)`.
`cap` gives the 2-D matrix a batched/element handle yields on `collect()`;
`cap1` the 1-D series a single-node handle yields. -/
def reduceItem (df : List SchemaRow) (ods : Ods) (eles : List Ele) (nodes : List Node)
    (area : ℚ) (cap : Recorder → Mat) (cap1 : Recorder → List ℚ) (otype : String) :
    Option String × Option OVal × Nat :=
  match List.lookup otype ods with
  | none =>
      if otype = "STRSX" then
        let depths := nodes.map (fun n => n.y)
        match List.lookup "DISPX" ods with
        | none => (some "KeyError", none, 0)
        | some (.listOf _) => (some "AttributeError", none, 0)
        | some (.batched r) =>
            let vals := transposeD (cap r)
            (none, some (.arr2 (strsxCore depths vals)), 1)
      else (none, none, 0)
  | some (.listOf rs) =>
      if otype = "TAU" ∨ otype = "STRS" then
        (none, some (.arr2 (rs.map (fun r => (cap r).getD 2 []))), rs.length)
      else (none, some (.arr2 (rs.map cap1)), rs.length)
  | some (.batched r) =>
      let vals := transposeD (cap r)
      if otype = "TAU" ∨ otype = "STRS" then
        let recKind := if otype = "TAU" then "stress" else "strain"
        let chanName := if otype = "TAU" then "sxy" else "gxy"
        match schemaReduce df recKind chanName eles vals with
        | .error msg => (some msg, none, 1)
        | .ok out => (none, some (.arr2 out), 1)
      else if otype = "TAUX" then
        (none, some (.arr2 (tauxCore vals area)), 1)
      else (none, some (.arr2 vals), 1)

/-- The `for otype in items` loop: threads the dict being built and the poll
count, stopping at the first raised exception but keeping the entries already
assigned (as the mutated `self.out_dict` does). -/
def reduceLoop (df : List SchemaRow) (ods : Ods) (eles : List Ele) (nodes : List Node)
    (area : ℚ) (cap : Recorder → Mat) (cap1 : Recorder → List ℚ) :
    List String → List (String × OVal) → Nat →
    Option String × List (String × OVal) × Nat
  | [], d, k => (none, d, k)
  | otype :: rest, d, k =>
      match reduceItem df ods eles nodes area cap cap1 otype with
      | (some msg, _, k') => (some msg, d, k + k')
      | (none, some v, k') => reduceLoop df ods eles nodes area cap cap1 rest (dictSet d otype v) (k + k')
      | (none, none, k') => reduceLoop df ods eles nodes area cap cap1 rest d (k + k')

/-- The time-axis step at the end of `results_to_dict`: if `'ACCX'` is a key
of the dict, `time = np.arange(0, len(out_dict['ACCX'][0])) * rec_dt`, else the
same from `'TAU'`, else no time entry.  (The `arr1` cases are unreachable from
the loop, whose entries are always 2-D.) -/
def addTime (recDt : ℚ) (d : List (String × OVal)) : List (String × OVal) :=
  match List.lookup "ACCX" d with
  | some (.arr2 m) => dictSet d "time" (.arr1 (timeArr (m.headD []).length recDt))
  | some (.arr1 _) => d
  | none =>
      match List.lookup "TAU" d with
      | some (.arr2 m) => dictSet d "time" (.arr1 (timeArr (m.headD []).length recDt))
      | some (.arr1 _) => d
      | none => d

/-- `items = list(self.outs) if self.outs is not None else list(self.ods)`:
the keys the reduction loop iterates over. -/
def rawItems (outsOpt : Option (List (String × OutSpec))) (ods : Ods) : List String :=
  match outsOpt with
  | none => ods.map (fun p => p.1)
  | some outs => outs.map (fun p => p.1)

/-- One full fresh computation of `results_to_dict` (the body guarded by
`if self.out_dict is None`): the loop runs over the item keys, then on success
the synthetic time axis is appended. -/
def rawReduce (df : List SchemaRow) (outsOpt : Option (List (String × OutSpec)))
    (ods : Ods) (eles : List Ele) (nodes : List Node) (recDt area : ℚ)
    (cap : Recorder → Mat) (cap1 : Recorder → List ℚ) :
    Option String × List (String × OVal) × Nat :=
  match reduceLoop df ods eles nodes area cap cap1 (rawItems outsOpt ods) [] 0 with
  | (some msg, d, k) => (some msg, d, k)
  | (none, d, k) => (none, addTime recDt d, k)

/-- Mutable state of an `O3SRAOutputs` object across `results_to_dict` calls:
the cached `self.out_dict` (`None` initially) and the number of `collect()`
calls made so far. -/
structure OState where
  outDict : Option (List (String × OVal))
  polls : Nat
deriving DecidableEq, Repr

/-- `O3SRAOutputs.results_to_dict` as a state transformer: return the cached
dict if present, otherwise compute it once, cache whatever was built (even
when an exception is raised part-way, as the Python object keeps the partially
filled dict), and account for the recorder polls performed. -/
def resultsToDict (df : List SchemaRow) (outsOpt : Option (List (String × OutSpec)))
    (ods : Ods) (eles : List Ele) (nodes : List Node) (recDt area : ℚ)
    (cap : Recorder → Mat) (cap1 : Recorder → List ℚ) (s : OState) :
    Except String (List (String × OVal)) × OState :=
  match s.outDict with
  | some d => (.ok d, s)
  | none =>
      match rawReduce df outsOpt ods eles nodes recDt area cap cap1 with
      | (some msg, d, k) => (.error msg, ⟨some d, s.polls + k⟩)
      | (none, d, k) => (.ok d, ⟨some d, s.polls + k⟩)

/-! ## The dynamic stepping loop of `SRA1D.execute_dynamic` -/

/-- Abstract state of the external solver during the dynamic stage: the
current analysis time and the samples the armed recorders have captured so
far (the external solver fills these during `analyze`). -/
structure SolSt where
  time : ℚ
  samples : List ℚ
deriving DecidableEq, Repr

/-- The `while` loop of `SRA1D.execute_dynamic` (time origin reset to 0, so
`init_time = 0`): as long as the solver time is below `analysis_time`, attempt
one full step; a truthy (failed) `analyze` triggers a retry of ten substeps of
one-tenth size on the same interval; if the retry also fails the loop breaks.
`an s n dt` is the external `o3.analyze(osi, n, dt)` call from state `s`,
returning the failure flag and the new solver state; `fuel` bounds the number
of iterations (the source loop terminates because solver time advances). -/
def dynLoop (an : SolSt → Nat → ℚ → Bool × SolSt) (tEnd dt : ℚ) :
    Nat → SolSt → SolSt
  | 0, s => s
  | Nat.succ fuel, s =>
      if s.time < tEnd then
        let r1 := an s 1 dt
        if r1.1 then
          let r2 := an r1.2 10 (dt / 10)
          if r2.1 then r2.2
          else dynLoop an tEnd dt fuel r2.2
        else dynLoop an tEnd dt fuel r1.2
      else s

/-- `SRA1D.execute_dynamic` restricted to what the output pipeline sees: arm
the recorders via `start_recorders`, run the stepping loop, then always run
`results_to_dict` on whatever the recorders captured (the capture functions
depend on the final solver state). -/
def execDynReduce (an : SolSt → Nat → ℚ → Bool × SolSt)
    (outs : List (String × OutSpec)) (sn : List (Node × Node)) (eles : List Ele)
    (df : List SchemaRow) (tEnd dt recDt area : ℚ) (fuel : Nat) (s0 : SolSt)
    (capOf : SolSt → Recorder → Mat) (cap1Of : SolSt → Recorder → List ℚ) :
    Except String (SolSt × (Option String × List (String × OVal) × Nat)) := do
  let (ods, _) ← startRecorders outs sn eles
  let s := dynLoop an tEnd dt fuel s0
  pure (s, rawReduce df (some outs) ods eles (sn.map (fun p => p.1)) recDt area
    (capOf s) (cap1Of s))

/-! ## Lemmas about `argminAbs` -/

theorem argminAbs_cons (t d : ℚ) (rest : List ℚ) :
    argminAbs t (d :: rest) =
      if rest = [] then 0
      else if |rest.getD (argminAbs t rest) 0 - t| < |d - t| then argminAbs t rest + 1
      else 0 := rfl

theorem argminAbs_lt_length (t : ℚ) :
    ∀ (l : List ℚ), l ≠ [] → argminAbs t l < l.length
  | [], h => absurd rfl h
  | d :: rest, _ => by
      rw [argminAbs_cons]
      by_cases hr : rest = []
      · simp [hr]
      · have ih := argminAbs_lt_length t rest hr
        rw [if_neg hr]
        split
        · simp
          omega
        · simp

theorem argminAbs_min (t : ℚ) :
    ∀ (l : List ℚ) (k : Nat), k < l.length →
      |l.getD (argminAbs t l) 0 - t| ≤ |l.getD k 0 - t|
  | [], k, hk => by simp at hk
  | d :: rest, k, hk => by
      rw [argminAbs_cons]
      by_cases hr : rest = []
      · subst hr
        have : k = 0 := by simpa using hk
        subst this
        simp
      · have ih := fun k hk => argminAbs_min t rest k hk
        rw [if_neg hr]
        split
        · next hlt =>
            cases k with
            | zero => simpa [List.getD_cons_succ] using le_of_lt hlt
            | succ k =>
                simp only [List.getD_cons_succ]
                exact ih k (by simpa using Nat.lt_of_succ_lt_succ hk)
        · next hge =>
            cases k with
            | zero => simp
            | succ k =>
                simp only [List.getD_cons_zero, List.getD_cons_succ]
                have h1 : |d - t| ≤ |rest.getD (argminAbs t rest) 0 - t| :=
                  le_of_not_lt hge
                exact le_trans h1 (ih k (by simpa using Nat.lt_of_succ_lt_succ hk))

theorem argminAbs_first (t : ℚ) :
    ∀ (l : List ℚ) (k : Nat), k < argminAbs t l →
      |l.getD (argminAbs t l) 0 - t| < |l.getD k 0 - t|
  | [], k, hk => by simp [argminAbs] at hk
  | d :: rest, k, hk => by
      rw [argminAbs_cons] at hk ⊢
      by_cases hr : rest = []
      · rw [if_pos hr] at hk; omega
      · have ih := fun k hk => argminAbs_first t rest k hk
        rw [if_neg hr] at hk ⊢
        split at hk
        · next hlt =>
            rw [if_pos hlt]
            cases k with
            | zero => simpa using hlt
            | succ k =>
                simp only [List.getD_cons_succ]
                exact ih k (Nat.lt_of_succ_lt_succ hk)
        · next hge => omega

/-- The property the spec asserts of a selected location index: it is in
range, no other location is strictly closer to the requested depth, and every
earlier location is strictly farther (first-encountered tie-break). -/
def nearestFirst (dep : ℚ) (depths : List ℚ) : Prop :=
  argminAbs dep depths < depths.length ∧
  (∀ k < depths.length, |depths.getD (argminAbs dep depths) 0 - dep| ≤ |depths.getD k 0 - dep|) ∧
  (∀ k < argminAbs dep depths, |depths.getD (argminAbs dep depths) 0 - dep| < |depths.getD k 0 - dep|)

instance (dep : ℚ) (depths : List ℚ) : Decidable (nearestFirst dep depths) := by
  unfold nearestFirst; infer_instance

theorem nearestFirst_of_ne_nil (dep : ℚ) (depths : List ℚ) (h : depths ≠ []) :
    nearestFirst dep depths :=
  ⟨argminAbs_lt_length dep depths h,
   fun k hk => argminAbs_min dep depths k hk,
   fun k hk => argminAbs_first dep depths k hk⟩

theorem nodeDepthsOf_length (sn : List (Node × Node)) :
    (nodeDepthsOf sn).length = sn.length := by
  simp [nodeDepthsOf]

theorem eleDepthsOf_length (sn : List (Node × Node)) :
    (eleDepthsOf sn).length = sn.length - 1 := by
  simp [eleDepthsOf, List.length_zipWith, nodeDepthsOf_length]

/-! ## Claim C1 -/

/-- Claim C1 counterexample: the output kind `'TAUX'` requested with the
explicit depth list `[5]` allocates no recorder handle at all — the resulting
`ods` dict and the allocation list are both empty, not one handle per
requested depth. -/
theorem c1_counterexample :
    startRecorders [("TAUX", OutSpec.depths [5])]
        [(⟨0, 0⟩, ⟨3, 0⟩), (⟨0, -1/2⟩, ⟨3, -1/2⟩)] [⟨"pimy", true⟩]
      = .ok ([], []) := by
  rfl

/-- Claim C1 (amended): for the output kinds that have an explicit-depth-list
path — `'ACCX'` (nodes), `'TAU'` and `'STRS'` (elements) — `start_recorders`
allocates one single-location handle per requested depth, stored in request
order as a list, and each selected node/element index minimises the absolute
depth difference to the requested depth, ties broken in favour of the
first-encountered (shallower) location. -/
theorem c1_explicit_depth_selection (sn : List (Node × Node)) (eles : List Ele)
    (as ts ss : List ℚ) (h2 : 2 ≤ sn.length)
    (hssp : eles.all (fun e => e.isSSP) = true) :
    ∃ ods created,
      startRecorders [("ACCX", OutSpec.depths as), ("TAU", OutSpec.depths ts),
          ("STRS", OutSpec.depths ss)] sn eles = .ok (ods, created) ∧
      List.lookup "ACCX" ods = some (.listOf (as.map (fun dep =>
        Recorder.nodeToArray (sn.getD (argminAbs dep (nodeDepthsOf sn)) default).1 "accel"))) ∧
      List.lookup "TAU" ods = some (.listOf (ts.map (fun dep =>
        Recorder.elementToArray (eles.getD (argminAbs dep (eleDepthsOf sn)) default) "stress"))) ∧
      List.lookup "STRS" ods = some (.listOf (ss.map (fun dep =>
        Recorder.elementToArray (eles.getD (argminAbs dep (eleDepthsOf sn)) default) "strain"))) ∧
      (∀ dep ∈ as, nearestFirst dep (nodeDepthsOf sn)) ∧
      (∀ dep ∈ ts ++ ss, nearestFirst dep (eleDepthsOf sn)) := by
  have hnd : nodeDepthsOf sn ≠ [] := by
    intro h
    have hl := nodeDepthsOf_length sn
    rw [h] at hl
    simp at hl
    omega
  have hed : eleDepthsOf sn ≠ [] := by
    intro h
    have hl := eleDepthsOf_length sn
    rw [h] at hl
    simp at hl
    omega
  have hrun : startRecorders [("ACCX", OutSpec.depths as), ("TAU", OutSpec.depths ts),
      ("STRS", OutSpec.depths ss)] sn eles =
      .ok ([("ACCX", OdsEntry.listOf (as.map (fun dep =>
              Recorder.nodeToArray (sn.getD (argminAbs dep (nodeDepthsOf sn)) default).1 "accel"))),
            ("TAU", OdsEntry.listOf (ts.map (fun dep =>
              Recorder.elementToArray (eles.getD (argminAbs dep (eleDepthsOf sn)) default) "stress"))),
            ("STRS", OdsEntry.listOf (ss.map (fun dep =>
              Recorder.elementToArray (eles.getD (argminAbs dep (eleDepthsOf sn)) default) "strain")))],
           as.map (fun dep =>
              Recorder.nodeToArray (sn.getD (argminAbs dep (nodeDepthsOf sn)) default).1 "accel")
           ++ ts.map (fun dep =>
              Recorder.elementToArray (eles.getD (argminAbs dep (eleDepthsOf sn)) default) "stress")
           ++ ss.map (fun dep =>
              Recorder.elementToArray (eles.getD (argminAbs dep (eleDepthsOf sn)) default) "strain")) := by
    simp only [startRecorders, List.foldlM_cons, List.foldlM_nil, srStep]
    simp [hssp, dictSet, List.lookup, Bind.bind, Except.bind, List.append_assoc]
    rfl
  exact ⟨_, _, hrun, by simp [List.lookup], by simp [List.lookup], by simp [List.lookup],
    fun dep _ => nearestFirst_of_ne_nil dep _ hnd,
    fun dep _ => nearestFirst_of_ne_nil dep _ hed⟩

/-- A concrete three-node-row column fixture (depths 0, −0.5, −1). -/
def snFix : List (Node × Node) :=
  [(⟨0, 0⟩, ⟨3, 0⟩), (⟨0, -1/2⟩, ⟨3, -1/2⟩), (⟨0, -1⟩, ⟨3, -1⟩)]

/-- Two concrete supported (SSP) elements. -/
def elesFix : List Ele := [⟨"pimy", true⟩, ⟨"pimy", true⟩]

/-- Witness for `c1_explicit_depth_selection` at the concrete fixture. -/
theorem c1_witness :
    2 ≤ snFix.length ∧ elesFix.all (fun e => e.isSSP) = true ∧
    (∃ ods created,
      startRecorders [("ACCX", OutSpec.depths [-1/4]), ("TAU", OutSpec.depths [-3/4]),
          ("STRS", OutSpec.depths [-1/2])] snFix elesFix = .ok (ods, created) ∧
      List.lookup "ACCX" ods = some (.listOf ([(-1/4 : ℚ)].map (fun dep =>
        Recorder.nodeToArray (snFix.getD (argminAbs dep (nodeDepthsOf snFix)) default).1 "accel"))) ∧
      List.lookup "TAU" ods = some (.listOf ([(-3/4 : ℚ)].map (fun dep =>
        Recorder.elementToArray (elesFix.getD (argminAbs dep (eleDepthsOf snFix)) default) "stress"))) ∧
      List.lookup "STRS" ods = some (.listOf ([(-1/2 : ℚ)].map (fun dep =>
        Recorder.elementToArray (elesFix.getD (argminAbs dep (eleDepthsOf snFix)) default) "strain"))) ∧
      (∀ dep ∈ [(-1/4 : ℚ)], nearestFirst dep (nodeDepthsOf snFix)) ∧
      (∀ dep ∈ [(-3/4 : ℚ)] ++ [(-1/2 : ℚ)], nearestFirst dep (eleDepthsOf snFix))) :=
  ⟨by decide, by decide,
   c1_explicit_depth_selection snFix elesFix [-1/4] [-3/4] [-1/2] (by decide) (by decide)⟩

/-! ## Claim C5 -/

/-- Claim C5 counterexample: requesting both `'TAUX'`/`'all'` and
`'STRSX'`/`'all'` does NOT skip the `'TAUX'` registration — a reaction
recorder is allocated and stored under the `'TAUX'` key. -/
theorem c5_counterexample :
    ((startRecorders [("TAUX", OutSpec.all), ("STRSX", OutSpec.all)] snFix elesFix).map
        (fun p => List.lookup "TAUX" p.1)) =
      .ok (some (.batched (.nodesToArray (flattenC snFix) "reaction"))) := by
  rfl

/-- Claim C5 (amended): when `'TAUX'`/`'all'` and `'STRSX'`/`'all'` are
requested together, the `'TAUX'` registration is not skipped — a reaction
recorder is allocated for `'TAUX'` and the `'STRSX'` request allocates one
displacement recorder (stored under the `'DISPX'` key), so exactly one
displacement recorder is allocated underneath.  The de-duplication rule the
code actually implements is the third conjunct: `'STRSX'`/`'all'` skips its
displacement recorder exactly when `'DISPX'` is itself among the requested
output kinds, in which case a single displacement recorder serves both. -/
theorem c5_dedup_actual (sn : List (Node × Node)) (eles : List Ele) :
    startRecorders [("TAUX", OutSpec.all), ("STRSX", OutSpec.all)] sn eles =
      .ok ([("TAUX", .batched (.nodesToArray (flattenC sn) "reaction")),
            ("DISPX", .batched (.nodesToArray (sn.map (fun p => p.1)) "disp"))],
           [.nodesToArray (flattenC sn) "reaction",
            .nodesToArray (sn.map (fun p => p.1)) "disp"]) ∧
    countDispRecorders [Recorder.nodesToArray (flattenC sn) "reaction",
        Recorder.nodesToArray (sn.map (fun p => p.1)) "disp"] = 1 ∧
    startRecorders [("DISPX", OutSpec.all), ("STRSX", OutSpec.all)] sn eles =
      .ok ([("DISPX", .batched (.nodesToArray (sn.map (fun p => p.1)) "disp"))],
           [.nodesToArray (sn.map (fun p => p.1)) "disp"]) := by
  refine ⟨?_, ?_, ?_⟩
  · simp [startRecorders, List.foldlM_cons, List.foldlM_nil, srStep, dictSet,
      List.lookup, Bind.bind, Except.bind]
    rfl
  · simp [countDispRecorders, List.countP, List.countP.go]
  · simp [startRecorders, List.foldlM_cons, List.foldlM_nil, srStep, dictSet,
      List.lookup, Bind.bind, Except.bind]
    rfl

/-! ## Index lemmas for the array primitives -/

theorem getD_tail {α : Type} (l : List α) (i : Nat) (d : α) :
    l.tail.getD i d = l.getD (i + 1) d := by
  cases l <;> simp

theorem getD_dropLast {α : Type} (l : List α) (i : Nat) (d : α) (h : i + 1 < l.length) :
    l.dropLast.getD i d = l.getD i d := by
  rw [List.getD_eq_getElem _ _ (by simp [List.length_dropLast]; omega),
      List.getD_eq_getElem _ _ (by omega), List.getElem_dropLast]

theorem getD_zipWith {α β γ : Type} (f : α → β → γ) (l1 : List α) (l2 : List β)
    (i : Nat) (d1 : α) (d2 : β) (d3 : γ) (h1 : i < l1.length) (h2 : i < l2.length) :
    (List.zipWith f l1 l2).getD i d3 = f (l1.getD i d1) (l2.getD i d2) := by
  rw [List.getD_eq_getElem _ _ (by simp [List.length_zipWith]; omega),
      List.getD_eq_getElem _ _ h1, List.getD_eq_getElem _ _ h2, List.getElem_zipWith]

theorem getD_map {α β : Type} (f : α → β) (l : List α) (i : Nat) (d1 : α) (d2 : β)
    (h : i < l.length) :
    (l.map f).getD i d2 = f (l.getD i d1) := by
  rw [List.getD_eq_getElem _ _ (by simpa using h), List.getD_eq_getElem _ _ h,
      List.getElem_map]

/-- Entry `m[i][t]` of a matrix, with out-of-range defaults. -/
def ent (m : Mat) (i t : Nat) : ℚ := (m.getD i []).getD t 0

theorem ent_cons_zero (r : List ℚ) (rest : Mat) (t : Nat) :
    ent (r :: rest) 0 t = r.getD t 0 := rfl

theorem ent_cons_succ (r : List ℚ) (rest : Mat) (j t : Nat) :
    ent (r :: rest) (j + 1) t = ent rest j t := rfl

theorem evens_length {α : Type} : ∀ (l : List α), (evens l).length = (l.length + 1) / 2
  | [] => by simp [evens]
  | [a] => by simp [evens]
  | a :: b :: rest => by
      simp only [evens, List.length_cons, evens_length rest]
      omega

theorem odds_length {α : Type} (l : List α) : (odds l).length = l.length / 2 := by
  cases l with
  | nil => simp [odds]
  | cons a rest =>
      simp only [odds, List.length_cons, evens_length rest]

theorem evens_getD {α : Type} (d : α) :
    ∀ (l : List α) (i : Nat), (evens l).getD i d = l.getD (2 * i) d
  | [], i => by simp [evens]
  | [a], i => by
      cases i with
      | zero => simp [evens]
      | succ k =>
          simp only [evens]
          rw [List.getD_eq_default _ _ (by simp only [List.length_singleton]; omega),
              List.getD_eq_default _ _ (by simp only [List.length_singleton]; omega)]
  | a :: b :: rest, i => by
      cases i with
      | zero => simp [evens]
      | succ k =>
          have ih := evens_getD d rest k
          simp only [evens, List.getD_cons_succ]
          rw [show 2 * (k + 1) = 2 * k + 1 + 1 by ring]
          simp only [List.getD_cons_succ]
          exact ih

theorem odds_getD {α : Type} (d : α) (l : List α) (i : Nat) :
    (odds l).getD i d = l.getD (2 * i + 1) d := by
  cases l with
  | nil => simp [odds]
  | cons a rest =>
      simp only [odds]
      rw [evens_getD]
      simp [List.getD_cons_succ]

theorem cumRowsAux_length (acc : List ℚ) :
    ∀ (m : Mat), (cumRowsAux acc m).length = m.length := by
  intro m
  induction m generalizing acc with
  | nil => simp [cumRowsAux]
  | cons r rest ih => simp [cumRowsAux, ih]

theorem cumRows_length (m : Mat) : (cumRows m).length = m.length := by
  cases m with
  | nil => simp [cumRows]
  | cons r rest => simp [cumRows, cumRowsAux_length]

theorem cumRowsAux_row_length (T : Nat) :
    ∀ (m : Mat) (acc : List ℚ), acc.length = T → (∀ row ∈ m, row.length = T) →
      ∀ i, i < m.length → ((cumRowsAux acc m).getD i []).length = T
  | r :: rest, acc, hacc, hrow, i, hi => by
      have hs : (List.zipWith (· + ·) acc r).length = T := by
        simp [List.length_zipWith, hacc, hrow r (by simp)]
      cases i with
      | zero => simpa [cumRowsAux] using hs
      | succ k =>
          simp only [cumRowsAux, List.getD_cons_succ]
          exact cumRowsAux_row_length T rest _ hs
            (fun row hr => hrow row (by simp [hr])) k (by simpa using Nat.lt_of_succ_lt_succ hi)

theorem cumRows_row_length (T : Nat) (m : Mat) (hrow : ∀ row ∈ m, row.length = T)
    (i : Nat) (hi : i < m.length) : ((cumRows m).getD i []).length = T := by
  cases m with
  | nil => simp at hi
  | cons r rest =>
      cases i with
      | zero => simpa [cumRows] using hrow r (by simp)
      | succ k =>
          simp only [cumRows, List.getD_cons_succ]
          exact cumRowsAux_row_length T rest r (hrow r (by simp))
            (fun row hr => hrow row (by simp [hr])) k (by simpa using Nat.lt_of_succ_lt_succ hi)

theorem cumRowsAux_ent (T : Nat) :
    ∀ (m : Mat) (acc : List ℚ), acc.length = T → (∀ row ∈ m, row.length = T) →
      ∀ i t, i < m.length → t < T →
        ent (cumRowsAux acc m) i t = acc.getD t 0 + ∑ j ∈ Finset.range (i + 1), ent m j t
  | r :: rest, acc, hacc, hrow, i, t, hi, ht => by
      have hrT : r.length = T := hrow r (by simp)
      have hs : (List.zipWith (· + ·) acc r).length = T := by
        simp [List.length_zipWith, hacc, hrT]
      cases i with
      | zero =>
          simp only [cumRowsAux, ent_cons_zero]
          rw [getD_zipWith (· + ·) acc r t 0 0 0 (by omega) (by omega)]
          simp [Finset.sum_range_succ, ent_cons_zero]
      | succ k =>
          simp only [cumRowsAux, ent_cons_succ]
          rw [cumRowsAux_ent T rest _ hs (fun row hr => hrow row (by simp [hr])) k t
                (by simpa using Nat.lt_of_succ_lt_succ hi) ht]
          rw [getD_zipWith (· + ·) acc r t 0 0 0 (by omega) (by omega)]
          rw [Finset.sum_range_succ' (fun j => ent (r :: rest) j t) (k + 1)]
          simp only [ent_cons_succ, ent_cons_zero]
          ring

theorem cumRows_ent (T : Nat) (m : Mat) (hrow : ∀ row ∈ m, row.length = T)
    (i t : Nat) (hi : i < m.length) (ht : t < T) :
    ent (cumRows m) i t = ∑ j ∈ Finset.range (i + 1), ent m j t := by
  cases m with
  | nil => simp at hi
  | cons r rest =>
      cases i with
      | zero => simp [cumRows, ent_cons_zero]
      | succ k =>
          simp only [cumRows, ent_cons_succ]
          rw [cumRowsAux_ent T rest r (hrow r (by simp))
                (fun row hr => hrow row (by simp [hr])) k t
                (by simpa using Nat.lt_of_succ_lt_succ hi) ht]
          rw [Finset.sum_range_succ' (fun j => ent (r :: rest) j t) (k + 1)]
          simp only [ent_cons_succ, ent_cons_zero]
          ring

/-! ## Claim C2 -/

/-- Claim C2: the `'TAUX'` (reaction-derived shear stress) reduction has one
fewer location row than the number of node rows (`vals` has `2 * n` rows, the
left/right reactions of `n` node rows, and the result has `n - 1`), and the
entry for interval `i` at time `t` is the average over the two bounding node
pairs of (left + right reaction), plus the negated running cumulative sum of
(left − right reaction) from the surface down to the interval, divided by the
reference area. -/
theorem rowOp_length (f : ℚ → ℚ → ℚ) (m1 m2 : Mat) :
    (rowOp f m1 m2).length = min m1.length m2.length := by
  simp [rowOp, List.length_zipWith]

theorem rowOp_getD (f : ℚ → ℚ → ℚ) (m1 m2 : Mat) (i : Nat)
    (h1 : i < m1.length) (h2 : i < m2.length) :
    (rowOp f m1 m2).getD i [] = List.zipWith f (m1.getD i []) (m2.getD i []) := by
  unfold rowOp
  exact getD_zipWith (List.zipWith f) m1 m2 i [] [] [] h1 h2

theorem c2_taux_reduction (vals : Mat) (n T : Nat) (area : ℚ)
    (hv : vals.length = 2 * n) (hrow : ∀ row ∈ vals, row.length = T) (hn : 1 ≤ n) :
    (tauxCore vals area).length = n - 1 ∧
    ∀ i t, i < n - 1 → t < T →
      ent (tauxCore vals area) i t =
        (((ent vals (2 * i) t + ent vals (2 * i + 1) t) +
            (ent vals (2 * (i + 1)) t + ent vals (2 * (i + 1) + 1) t)) / 2 +
          (-∑ j ∈ Finset.range (i + 1), (ent vals (2 * j) t - ent vals (2 * j + 1) t))) /
          area := by
  have hvrow : ∀ k, k < 2 * n → (vals.getD k []).length = T := by
    intro k hk
    have hmem : vals.getD k [] ∈ vals := by
      rw [List.getD_eq_getElem _ _ (by omega)]
      exact List.getElem_mem _
    exact hrow _ hmem
  have hL : (evens vals).length = n := by rw [evens_length, hv]; omega
  have hR : (odds vals).length = n := by rw [odds_length, hv]; omega
  have hD : (rowOp (· - ·) (evens vals) (odds vals)).length = n := by
    rw [rowOp_length, hL, hR]; omega
  have hDrowEq : ∀ j, j < n → (rowOp (· - ·) (evens vals) (odds vals)).getD j [] =
      List.zipWith (· - ·) (vals.getD (2 * j) []) (vals.getD (2 * j + 1) []) := by
    intro j hj
    rw [rowOp_getD _ _ _ j (by omega) (by omega), evens_getD, odds_getD]
  have hDrowMem : ∀ row ∈ rowOp (· - ·) (evens vals) (odds vals), row.length = T := by
    intro row hmem
    obtain ⟨j, hj, hjr⟩ := List.getElem_of_mem hmem
    rw [rowOp_length, hL, hR] at hj
    have hjn : j < n := by omega
    have := hDrowEq j hjn
    rw [List.getD_eq_getElem _ _ (by rw [hD]; omega)] at this
    rw [← hjr, this, List.length_zipWith, hvrow _ (by omega), hvrow _ (by omega)]
    omega
  have hDgetD : ∀ j t, j < n → t < T →
      ent (rowOp (· - ·) (evens vals) (odds vals)) j t =
        ent vals (2 * j) t - ent vals (2 * j + 1) t := by
    intro j t hj ht
    unfold ent
    rw [hDrowEq j hj]
    rw [getD_zipWith (· - ·) _ _ t 0 0 0 (by rw [hvrow (2 * j) (by omega)]; omega)
          (by rw [hvrow (2 * j + 1) (by omega)]; omega)]
  have hFdyn : (rowOp (· + ·) (evens vals) (odds vals)).length = n := by
    rw [rowOp_length, hL, hR]; omega
  have hFdynRowEq : ∀ j, j < n → (rowOp (· + ·) (evens vals) (odds vals)).getD j [] =
      List.zipWith (· + ·) (vals.getD (2 * j) []) (vals.getD (2 * j + 1) []) := by
    intro j hj
    rw [rowOp_getD _ _ _ j (by omega) (by omega), evens_getD, odds_getD]
  have hcumLen : (cumRows (rowOp (· - ·) (evens vals) (odds vals))).length = n := by
    rw [cumRows_length, hD]
  have hnegLen : (negRows (cumRows (rowOp (· - ·) (evens vals) (odds vals)))).length = n := by
    simp [negRows, hcumLen]
  have hFstaticLen :
      ((negRows (cumRows (rowOp (· - ·) (evens vals) (odds vals)))).dropLast).length = n - 1 := by
    simp [hnegLen]
  have hFdynAvLen :
      (rowOp (fun a b => (a + b) / 2) (rowOp (· + ·) (evens vals) (odds vals)).tail
        (rowOp (· + ·) (evens vals) (odds vals)).dropLast).length = n - 1 := by
    rw [rowOp_length, List.length_tail, List.length_dropLast, hFdyn]
    omega
  constructor
  · simp only [tauxCore]
    rw [rowOp_length, hFdynAvLen, hFstaticLen]
    omega
  · intro i t hi ht
    have hiN : i < n := by omega
    have hi1N : i + 1 < n := by omega
    simp only [tauxCore]
    unfold ent
    rw [rowOp_getD _ _ _ i (by rw [hFdynAvLen]; omega) (by rw [hFstaticLen]; omega)]
    have hFDARowEq :
        (rowOp (fun a b => (a + b) / 2) (rowOp (· + ·) (evens vals) (odds vals)).tail
          (rowOp (· + ·) (evens vals) (odds vals)).dropLast).getD i [] =
        List.zipWith (fun a b => (a + b) / 2)
          (List.zipWith (· + ·) (vals.getD (2 * (i + 1)) []) (vals.getD (2 * (i + 1) + 1) []))
          (List.zipWith (· + ·) (vals.getD (2 * i) []) (vals.getD (2 * i + 1) [])) := by
      rw [rowOp_getD _ _ _ i (by rw [List.length_tail, hFdyn]; omega)
            (by rw [List.length_dropLast, hFdyn]; omega),
          getD_tail, getD_dropLast _ _ _ (by rw [hFdyn]; omega),
          hFdynRowEq (i + 1) hi1N, hFdynRowEq i hiN]
    have hFSRowEq :
        ((negRows (cumRows (rowOp (· - ·) (evens vals) (odds vals)))).dropLast).getD i [] =
        List.map (fun x => -x)
          ((cumRows (rowOp (· - ·) (evens vals) (odds vals))).getD i []) := by
      rw [getD_dropLast _ _ _ (by rw [hnegLen]; omega)]
      unfold negRows
      rw [getD_map _ _ i [] [] (by rw [hcumLen]; omega)]
    rw [hFDARowEq, hFSRowEq]
    have hcumRowLen :
        ((cumRows (rowOp (· - ·) (evens vals) (odds vals))).getD i []).length = T :=
      cumRows_row_length T _ hDrowMem i (by rw [hD]; omega)
    rw [getD_zipWith (fun a b => (a + b) / area) _ _ t 0 0 0
          (by rw [List.length_zipWith, List.length_zipWith, List.length_zipWith,
                hvrow (2 * (i + 1)) (by omega), hvrow (2 * (i + 1) + 1) (by omega),
                hvrow (2 * i) (by omega), hvrow (2 * i + 1) (by omega)]; omega)
          (by rw [List.length_map, hcumRowLen]; omega)]
    rw [getD_zipWith (fun a b => (a + b) / 2) _ _ t 0 0 0
          (by rw [List.length_zipWith, hvrow (2 * (i + 1)) (by omega),
                hvrow (2 * (i + 1) + 1) (by omega)]; omega)
          (by rw [List.length_zipWith, hvrow (2 * i) (by omega),
                hvrow (2 * i + 1) (by omega)]; omega)]
    rw [getD_zipWith (· + ·) _ _ t 0 0 0 (by rw [hvrow (2 * (i + 1)) (by omega)]; omega)
          (by rw [hvrow (2 * (i + 1) + 1) (by omega)]; omega)]
    rw [getD_zipWith (· + ·) _ _ t 0 0 0 (by rw [hvrow (2 * i) (by omega)]; omega)
          (by rw [hvrow (2 * i + 1) (by omega)]; omega)]
    rw [getD_map _ _ t 0 0 (by rw [hcumRowLen]; omega)]
    rw [show ((cumRows (rowOp (· - ·) (evens vals) (odds vals))).getD i []).getD t 0 =
          ent (cumRows (rowOp (· - ·) (evens vals) (odds vals))) i t from rfl]
    rw [cumRows_ent T _ hDrowMem i t (by rw [hD]; omega) ht]
    rw [Finset.sum_congr rfl (fun j hj =>
          hDgetD j t (by have := Finset.mem_range.mp hj; omega) ht)]
    unfold ent
    ring

/-- Witness for `c2_taux_reduction` at a concrete two-node-pair column. -/
theorem c2_witness :
    (([[1, 2], [10, 20], [3, 4], [30, 40], [5, 6], [50, 60]] : Mat).length = 2 * 3 ∧
      (∀ row ∈ ([[1, 2], [10, 20], [3, 4], [30, 40], [5, 6], [50, 60]] : Mat),
        row.length = 2) ∧ 1 ≤ 3) ∧
    ((tauxCore [[1, 2], [10, 20], [3, 4], [30, 40], [5, 6], [50, 60]] 1).length = 3 - 1 ∧
      ∀ i t, i < 3 - 1 → t < 2 →
        ent (tauxCore [[1, 2], [10, 20], [3, 4], [30, 40], [5, 6], [50, 60]] 1) i t =
          (((ent [[1, 2], [10, 20], [3, 4], [30, 40], [5, 6], [50, 60]] (2 * i) t +
              ent [[1, 2], [10, 20], [3, 4], [30, 40], [5, 6], [50, 60]] (2 * i + 1) t) +
            (ent [[1, 2], [10, 20], [3, 4], [30, 40], [5, 6], [50, 60]] (2 * (i + 1)) t +
              ent [[1, 2], [10, 20], [3, 4], [30, 40], [5, 6], [50, 60]] (2 * (i + 1) + 1) t)) / 2 +
            (-∑ j ∈ Finset.range (i + 1),
              (ent [[1, 2], [10, 20], [3, 4], [30, 40], [5, 6], [50, 60]] (2 * j) t -
                ent [[1, 2], [10, 20], [3, 4], [30, 40], [5, 6], [50, 60]] (2 * j + 1) t))) / 1) :=
  ⟨⟨by decide, by decide, by decide⟩,
   c2_taux_reduction [[1, 2], [10, 20], [3, 4], [30, 40], [5, 6], [50, 60]] 3 2 1
     (by decide) (by decide) (by decide)⟩


/-- Claim C3: the `'STRSX'` (displacement-derived shear strain) reduction has
one fewer location row than the number of node rows, and the entry for
interval `i` at time `t` is the finite difference of horizontal displacement
between the two nodes bounding the interval divided by the vertical spacing of
that node pair. -/
theorem c3_strsx_reduction (depths : List ℚ) (vals : Mat) (n T : Nat)
    (hd : depths.length = n) (hv : vals.length = n)
    (hrow : ∀ row ∈ vals, row.length = T) (hn : 1 ≤ n) :
    (strsxCore depths vals).length = n - 1 ∧
    ∀ i t, i < n - 1 → t < T →
      ent (strsxCore depths vals) i t =
        (ent vals (i + 1) t - ent vals i t) /
          (depths.getD (i + 1) 0 - depths.getD i 0) := by
  have hn1 : vals.tail.length = n - 1 := by simp [hv]
  have hn2 : vals.dropLast.length = n - 1 := by simp [hv]
  have hdt : depths.tail.length = n - 1 := by simp [hd]
  have hdd : depths.dropLast.length = n - 1 := by simp [hd]
  constructor
  · simp [strsxCore, rowOp, List.length_zipWith, hn1, hn2, hdt, hdd]
  · intro i t hi ht
    have hi1 : i + 1 < vals.length := by omega
    have hmem1 : vals.getD (i + 1) [] ∈ vals := by
      rw [List.getD_eq_getElem _ _ hi1]
      exact List.getElem_mem _
    have hmem0 : vals.getD i [] ∈ vals := by
      rw [List.getD_eq_getElem _ _ (by omega : i < vals.length)]
      exact List.getElem_mem _
    have hL1 : (vals.getD (i + 1) []).length = T := hrow _ hmem1
    have hL0 : (vals.getD i []).length = T := hrow _ hmem0
    unfold ent strsxCore
    rw [getD_zipWith (fun (row : List ℚ) (dinc : ℚ) => row.map (fun v => v / dinc))
          _ _ i [] 0 []
          (by simp [rowOp, List.length_zipWith, hn1, hn2]; omega)
          (by simp [List.length_zipWith, hdt, hdd]; omega)]
    unfold rowOp
    rw [getD_zipWith (List.zipWith (· - ·)) vals.tail vals.dropLast i [] [] []
          (by omega) (by omega)]
    rw [getD_tail, getD_dropLast _ _ _ (by omega)]
    rw [getD_zipWith (· - ·) depths.tail depths.dropLast i 0 0 0
          (by omega) (by omega)]
    rw [getD_tail, getD_dropLast _ _ _ (by omega)]
    rw [getD_map _ _ t 0 0
          (by rw [List.length_zipWith, hL1, hL0]; omega)]
    rw [getD_zipWith (· - ·) _ _ t 0 0 0 (by omega) (by omega)]

/-- Witness for `c3_strsx_reduction` at a concrete three-node column. -/
theorem c3_witness :
    ([(0 : ℚ), -1/2, -1].length = 3 ∧ ([[1, 2], [3, 5], [6, 9]] : Mat).length = 3 ∧
      (∀ row ∈ ([[1, 2], [3, 5], [6, 9]] : Mat), row.length = 2) ∧ 1 ≤ 3) ∧
    ((strsxCore [(0 : ℚ), -1/2, -1] [[1, 2], [3, 5], [6, 9]]).length = 3 - 1 ∧
      ∀ i t, i < 3 - 1 → t < 2 →
        ent (strsxCore [(0 : ℚ), -1/2, -1] [[1, 2], [3, 5], [6, 9]]) i t =
          (ent [[1, 2], [3, 5], [6, 9]] (i + 1) t - ent [[1, 2], [3, 5], [6, 9]] i t) /
            ([(0 : ℚ), -1/2, -1].getD (i + 1) 0 - [(0 : ℚ), -1/2, -1].getD i 0)) :=
  ⟨⟨by decide, by decide, by decide, by decide⟩,
   c3_strsx_reduction [0, -1/2, -1] [[1, 2], [3, 5], [6, 9]] 3 2
     (by decide) (by decide) (by decide) (by decide)⟩

instance {ε α : Type} [DecidableEq ε] [DecidableEq α] : DecidableEq (Except ε α) :=
  fun x y =>
    match x, y with
    | .ok a, .ok b =>
        if h : a = b then isTrue (by rw [h]) else isFalse (by intro hh; cases hh; exact h rfl)
    | .error a, .error b =>
        if h : a = b then isTrue (by rw [h]) else isFalse (by intro hh; cases hh; exact h rfl)
    | .ok _, .error _ => isFalse (by intro hh; cases hh)
    | .error _, .ok _ => isFalse (by intro hh; cases hh)

/-! ## Claim C4 -/

/-- Claim C4: result reduction is idempotent and memoized — after a first
successful `results_to_dict` call on a fresh (`out_dict = None`) object, a
second call returns the identical cached result dict and the identical state,
so no recorder handle is polled again (the poll counter is unchanged) and the
returned arrays are bit-identical. -/
theorem c4_memoized (df : List SchemaRow) (outsOpt : Option (List (String × OutSpec)))
    (ods : Ods) (eles : List Ele) (nodes : List Node) (recDt area : ℚ)
    (cap : Recorder → Mat) (cap1 : Recorder → List ℚ) (s0 : OState)
    (d : List (String × OVal)) (s1 : OState)
    (h0 : s0.outDict = none)
    (h1 : resultsToDict df outsOpt ods eles nodes recDt area cap cap1 s0 = (.ok d, s1)) :
    resultsToDict df outsOpt ods eles nodes recDt area cap cap1 s1 = (.ok d, s1) := by
  unfold resultsToDict at h1 ⊢
  rw [h0] at h1
  rcases hraw : rawReduce df outsOpt ods eles nodes recDt area cap cap1 with ⟨err, d', k⟩
  rw [hraw] at h1
  cases err with
  | some msg => simp at h1
  | none =>
      simp only [Prod.mk.injEq, Except.ok.injEq] at h1
      obtain ⟨hd, hs⟩ := h1
      rw [← hs]
      simp [hd]

/-- Witness for `c4_memoized`: a concrete completed reduction, re-invoked. -/
theorem c4_witness :
    resultsToDict [] (some [("ACCX", OutSpec.all)])
        [("ACCX", OdsEntry.batched (Recorder.nodesToArray [] "accel"))] [] [] 1 1
        (fun _ => [[1, 2], [3, 4]]) (fun _ => [])
        ⟨some [("ACCX", OVal.arr2 [[1, 3], [2, 4]]), ("time", OVal.arr1 (timeArr 2 1))], 1⟩ =
      (.ok [("ACCX", OVal.arr2 [[1, 3], [2, 4]]), ("time", OVal.arr1 (timeArr 2 1))],
       ⟨some [("ACCX", OVal.arr2 [[1, 3], [2, 4]]), ("time", OVal.arr1 (timeArr 2 1))], 1⟩) :=
  c4_memoized [] (some [("ACCX", OutSpec.all)])
    [("ACCX", OdsEntry.batched (Recorder.nodesToArray [] "accel"))] [] [] 1 1
    (fun _ => [[1, 2], [3, 4]]) (fun _ => []) ⟨none, 0⟩
    [("ACCX", OVal.arr2 [[1, 3], [2, 4]]), ("time", OVal.arr1 (timeArr 2 1))]
    ⟨some [("ACCX", OVal.arr2 [[1, 3], [2, 4]]), ("time", OVal.arr1 (timeArr 2 1))], 1⟩
    rfl (by rfl)

/-! ## Dict-lookup lemmas -/

theorem lookup_dictSet_self {β : Type} :
    ∀ (d : List (String × β)) (k : String) (v : β),
      List.lookup k (dictSet d k v) = some v
  | [], k, v => by simp [dictSet]
  | (k0, v0) :: rest, k, v => by
      simp only [dictSet]
      split
      · simp
      · next h =>
          have hb : (k == k0) = false := by
            simp only [beq_eq_false_iff_ne, ne_eq]
            exact fun hh => h hh.symm
          simp [List.lookup, hb, lookup_dictSet_self rest k v]

theorem lookup_dictSet_ne {β : Type} :
    ∀ (d : List (String × β)) (k k' : String) (v : β), k' ≠ k →
      List.lookup k' (dictSet d k v) = List.lookup k' d
  | [], k, k', v, hne => by
      have hb : (k' == k) = false := by simpa [beq_eq_false_iff_ne] using hne
      simp [dictSet, List.lookup, hb]
  | (k0, v0) :: rest, k, k', v, hne => by
      simp only [dictSet]
      split
      · next h =>
          subst h
          have hb : (k' == k0) = false := by simpa [beq_eq_false_iff_ne] using hne
          simp [List.lookup, hb]
      · next h =>
          by_cases hk0 : k' = k0
          · subst hk0
            simp [List.lookup]
          · have hb : (k' == k0) = false := by simpa [beq_eq_false_iff_ne] using hk0
            simp [List.lookup, hb, lookup_dictSet_ne rest k k' v hne]

theorem reduceItem_time_none (df : List SchemaRow) (ods : Ods) (eles : List Ele)
    (nodes : List Node) (area : ℚ) (cap : Recorder → Mat) (cap1 : Recorder → List ℚ)
    (hods : List.lookup "time" ods = none) :
    reduceItem df ods eles nodes area cap cap1 "time" = (none, none, 0) := by
  unfold reduceItem
  rw [hods]
  simp

theorem reduceLoop_time_none (df : List SchemaRow) (ods : Ods) (eles : List Ele)
    (nodes : List Node) (area : ℚ) (cap : Recorder → Mat) (cap1 : Recorder → List ℚ)
    (hods : List.lookup "time" ods = none) :
    ∀ (items : List String) (d : List (String × OVal)) (k : Nat),
      List.lookup "time" d = none →
      List.lookup "time" (reduceLoop df ods eles nodes area cap cap1 items d k).2.1 = none
  | [], d, k, hd => by simpa [reduceLoop] using hd
  | otype :: rest, d, k, hd => by
      by_cases hot : otype = "time"
      · subst hot
        simp only [reduceLoop, reduceItem_time_none df ods eles nodes area cap cap1 hods]
        exact reduceLoop_time_none df ods eles nodes area cap cap1 hods rest d (k + 0) hd
      · rcases hri : reduceItem df ods eles nodes area cap cap1 otype with ⟨err, entry, k'⟩
        simp only [reduceLoop, hri]
        cases err with
        | some msg => simpa using hd
        | none =>
            cases entry with
            | none => exact reduceLoop_time_none df ods eles nodes area cap cap1 hods rest d _ hd
            | some v =>
                refine reduceLoop_time_none df ods eles nodes area cap cap1 hods rest _ _ ?_
                rw [lookup_dictSet_ne d otype "time" v (fun hh => hot hh.symm)]
                exact hd

/-! ## Claim C7 -/

/-- Claim C7 counterexample: a reduction whose result set contains the
node-kind `'DISPX'` array but no `'ACCX'` or `'TAU'` array produces no
synthetic `'time'` entry at all, contradicting the claim for "any node-kind
or stress-kind array". -/
theorem c7_counterexample :
    rawReduce [] (some [("DISPX", OutSpec.all)])
        [("DISPX", OdsEntry.batched (Recorder.nodesToArray [] "disp"))] [] [] 1 1
        (fun _ => [[1, 2], [3, 4]]) (fun _ => []) =
      (none, [("DISPX", OVal.arr2 [[1, 3], [2, 4]])], 1) ∧
    List.lookup "time" [("DISPX", OVal.arr2 [[1, 3], [2, 4]])] = none := by
  constructor
  · rfl
  · rfl

/-- Claim C7 (amended): on a successful reduction, the synthetic `'time'`
array is created exactly when an `'ACCX'` or `'TAU'` entry is present: if
`'ACCX'` is present its sample count sets the time length, else if `'TAU'` is
present its sample count does, and otherwise (in particular when only
`'DISPX'`, `'STRS'`, `'TAUX'` or `'STRSX'` arrays were produced) no `'time'`
entry exists.  The time array is `k * rec_dt` for `k = 0 .. N-1`. -/
theorem c7_time_axis (df : List SchemaRow) (outsOpt : Option (List (String × OutSpec)))
    (ods : Ods) (eles : List Ele) (nodes : List Node) (recDt area : ℚ)
    (cap : Recorder → Mat) (cap1 : Recorder → List ℚ) (d : List (String × OVal)) (k : Nat)
    (hods : List.lookup "time" ods = none)
    (hraw : rawReduce df outsOpt ods eles nodes recDt area cap cap1 = (none, d, k)) :
    (∀ m, List.lookup "ACCX" d = some (.arr2 m) →
      List.lookup "time" d = some (.arr1 (timeArr (m.headD []).length recDt))) ∧
    (List.lookup "ACCX" d = none → ∀ m, List.lookup "TAU" d = some (.arr2 m) →
      List.lookup "time" d = some (.arr1 (timeArr (m.headD []).length recDt))) ∧
    (List.lookup "ACCX" d = none → List.lookup "TAU" d = none →
      List.lookup "time" d = none) := by
  rcases hloop : reduceLoop df ods eles nodes area cap cap1
      (rawItems outsOpt ods) [] 0 with ⟨err, d0, k0⟩
  unfold rawReduce at hraw
  rw [hloop] at hraw
  cases err with
  | some msg => simp at hraw
  | none =>
      simp only [Prod.mk.injEq, true_and] at hraw
      obtain ⟨hd, hk⟩ := hraw
      have htime0 : List.lookup "time" d0 = none := by
        have := reduceLoop_time_none df ods eles nodes area cap cap1 hods
          (rawItems outsOpt ods) [] 0 (by simp)
        rw [hloop] at this
        exact this
      subst hd
      unfold addTime
      rcases hacc : List.lookup "ACCX" d0 with _ | oval
      · rcases htau : List.lookup "TAU" d0 with _ | tval
        · refine ⟨?_, ?_, ?_⟩
          · intro m hm
            rw [hacc] at hm
            cases hm
          · intro _ m hm
            rw [htau] at hm
            cases hm
          · intro _ _
            exact htime0
        · cases tval with
          | arr1 v =>
              refine ⟨?_, ?_, ?_⟩
              · intro m hm
                rw [hacc] at hm
                cases hm
              · intro _ m hm
                rw [htau] at hm
                cases hm
              · intro _ htau2
                rw [htau] at htau2
                cases htau2
          | arr2 m0 =>
              refine ⟨?_, ?_, ?_⟩
              · intro m hm
                rw [lookup_dictSet_ne d0 "time" "ACCX" _ (by decide), hacc] at hm
                cases hm
              · intro _ m hm
                rw [lookup_dictSet_ne d0 "time" "TAU" _ (by decide), htau] at hm
                cases hm
                exact lookup_dictSet_self d0 "time" _
              · intro _ htau2
                rw [lookup_dictSet_ne d0 "time" "TAU" _ (by decide), htau] at htau2
                cases htau2
      · cases oval with
        | arr1 v =>
            refine ⟨?_, ?_, ?_⟩
            · intro m hm
              rw [hacc] at hm
              cases hm
            · intro hacc2 m hm
              rw [hacc] at hacc2
              cases hacc2
            · intro hacc2 _
              rw [hacc] at hacc2
              cases hacc2
        | arr2 m0 =>
            refine ⟨?_, ?_, ?_⟩
            · intro m hm
              rw [lookup_dictSet_ne d0 "time" "ACCX" _ (by decide), hacc] at hm
              cases hm
              exact lookup_dictSet_self d0 "time" _
            · intro hacc2 m hm
              rw [lookup_dictSet_ne d0 "time" "ACCX" _ (by decide), hacc] at hacc2
              cases hacc2
            · intro hacc2 _
              rw [lookup_dictSet_ne d0 "time" "ACCX" _ (by decide), hacc] at hacc2
              cases hacc2

/-- Witness for `c7_time_axis`: a concrete successful reduction with an
`'ACCX'` entry of two samples. -/
theorem c7_witness :
    (∀ m, List.lookup "ACCX" [("ACCX", OVal.arr2 [[1, 3], [2, 4]]),
        ("time", OVal.arr1 (timeArr 2 1))] = some (.arr2 m) →
      List.lookup "time" [("ACCX", OVal.arr2 [[1, 3], [2, 4]]),
        ("time", OVal.arr1 (timeArr 2 1))] = some (.arr1 (timeArr (m.headD []).length 1))) ∧
    (List.lookup "ACCX" [("ACCX", OVal.arr2 [[1, 3], [2, 4]]),
        ("time", OVal.arr1 (timeArr 2 1))] = none →
      ∀ m, List.lookup "TAU" [("ACCX", OVal.arr2 [[1, 3], [2, 4]]),
          ("time", OVal.arr1 (timeArr 2 1))] = some (.arr2 m) →
        List.lookup "time" [("ACCX", OVal.arr2 [[1, 3], [2, 4]]),
          ("time", OVal.arr1 (timeArr 2 1))] = some (.arr1 (timeArr (m.headD []).length 1))) ∧
    (List.lookup "ACCX" [("ACCX", OVal.arr2 [[1, 3], [2, 4]]),
        ("time", OVal.arr1 (timeArr 2 1))] = none →
      List.lookup "TAU" [("ACCX", OVal.arr2 [[1, 3], [2, 4]]),
        ("time", OVal.arr1 (timeArr 2 1))] = none →
      List.lookup "time" [("ACCX", OVal.arr2 [[1, 3], [2, 4]]),
        ("time", OVal.arr1 (timeArr 2 1))] = none) :=
  c7_time_axis [] (some [("ACCX", OutSpec.all)])
    [("ACCX", OdsEntry.batched (Recorder.nodesToArray [] "accel"))] [] [] 1 1
    (fun _ => [[1, 2], [3, 4]]) (fun _ => [])
    [("ACCX", OVal.arr2 [[1, 3], [2, 4]]), ("time", OVal.arr1 (timeArr 2 1))] 1
    (by rfl) (by rfl)

/-! ## Claim C8 -/

/-- Claim C8 counterexample: `'STRSX'` requested with an explicit depth list
registers no recorder (`ods` and the allocation list are empty), yet reduction
does not treat the missing recorder as a no-op — it raises `KeyError` while
falling back to the absent `'DISPX'` handle.  An error IS raised. -/
theorem c8_counterexample :
    startRecorders [("STRSX", OutSpec.depths [3])] snFix elesFix = .ok ([], []) ∧
    (resultsToDict [] (some [("STRSX", OutSpec.depths [3])]) [] [] [] 1 1
        (fun _ => []) (fun _ => []) ⟨none, 0⟩).1 = .error "KeyError" := by
  constructor
  · rfl
  · rfl

/-- Claim C8 (amended): for every output kind other than `'STRSX'`, a
requested kind with no matching registered recorder is a no-op — the
reduction loop continues with the dict and poll count unchanged, producing no
entry for that kind and raising no error.  (For `'STRSX'` the loop instead
falls back to the `'DISPX'` handle, raising `KeyError` when that is also
absent — see the counterexample.) -/
theorem c8_empty_request_noop (df : List SchemaRow) (ods : Ods) (eles : List Ele)
    (nodes : List Node) (area : ℚ) (cap : Recorder → Mat) (cap1 : Recorder → List ℚ)
    (otype : String) (rest : List String) (d : List (String × OVal)) (k : Nat)
    (hot : otype ≠ "STRSX") (hods : List.lookup otype ods = none) :
    reduceLoop df ods eles nodes area cap cap1 (otype :: rest) d k =
      reduceLoop df ods eles nodes area cap cap1 rest d k := by
  have hitem : reduceItem df ods eles nodes area cap cap1 otype = (none, none, 0) := by
    unfold reduceItem
    rw [hods]
    simp [hot]
  simp only [reduceLoop, hitem, Nat.add_zero]

/-- Witness for `c8_empty_request_noop`: `'TAUX'` requested but unregistered. -/
theorem c8_witness :
    reduceLoop [] [] [] [] 1 (fun _ => []) (fun _ => []) ["TAUX"] [] 0 =
      reduceLoop [] [] [] [] 1 (fun _ => []) (fun _ => []) [] [] 0 :=
  c8_empty_request_noop [] [] [] [] 1 (fun _ => []) (fun _ => []) "TAUX" [] [] 0
    (by decide) (by rfl)

/-! ## Claim C10 -/

/-- Claim C10: for `'TAU'`/`'STRS'` requested at explicit depths (a list of
single-location handles), reduction extracts the raw channel at fixed index 2
of each recorder's collected matrix, for every element, with no reference to
the schema table `df` or to the elements' materials (the right-hand side
mentions neither); the schema table is consulted only in the batched path,
which — as the second conjunct shows on a concrete schema row — can select a
different channel (index 3) than the fixed index 2 for the same element
data. -/
theorem c10_fixed_channel_index :
    (∀ (df : List SchemaRow) (ods : Ods) (eles : List Ele) (nodes : List Node)
        (area : ℚ) (cap : Recorder → Mat) (cap1 : Recorder → List ℚ)
        (rs : List Recorder) (otype : String),
      (otype = "TAU" ∨ otype = "STRS") →
      List.lookup otype ods = some (.listOf rs) →
      reduceItem df ods eles nodes area cap cap1 otype =
        (none, some (.arr2 (rs.map (fun r => (cap r).getD 2 []))), rs.length)) ∧
    (schemaReduce [⟨"custommat", "PlaneStrain", "stress", ["sxx", "syy", "szz", "sxy"]⟩]
        "stress" "sxy" [⟨"custommat", true⟩] [[0], [1], [2], [3]] = .ok [[3]] ∧
      ([[0], [1], [2], [3]] : Mat).getD 2 [] ≠ [(3 : ℚ)]) := by
  constructor
  · intro df ods eles nodes area cap cap1 rs otype hot hlook
    unfold reduceItem
    rw [hlook]
    rcases hot with h | h <;> subst h <;> simp
  · constructor
    · rfl
    · decide

/-- Witness for `c10_fixed_channel_index` at a concrete list of handles. -/
theorem c10_witness :
    reduceItem [] [("TAU", OdsEntry.listOf [Recorder.elementToArray ⟨"pimy", true⟩ "stress"])]
        [] [] 1 (fun _ => [[1], [2], [3], [4]]) (fun _ => []) "TAU" =
      (none, some (.arr2 ([Recorder.elementToArray ⟨"pimy", true⟩ "stress"].map
        (fun r => ((fun (_ : Recorder) => ([[1], [2], [3], [4]] : Mat)) r).getD 2 []))),
       [Recorder.elementToArray ⟨"pimy", true⟩ "stress"].length) :=
  c10_fixed_channel_index.1 [] [("TAU", OdsEntry.listOf
      [Recorder.elementToArray ⟨"pimy", true⟩ "stress"])] [] [] 1
    (fun _ => [[1], [2], [3], [4]]) (fun _ => [])
    [Recorder.elementToArray ⟨"pimy", true⟩ "stress"] "TAU" (Or.inl rfl) (by rfl)

/-! ## Claim C6 -/

/-- The success condition of the schema lookup for one element: the filtered
table has exactly one row and the shear channel name occurs in its channel
list. -/
def schemaOk (df : List SchemaRow) (recKind chanName : String) (e : Ele) : Prop :=
  (schemaMatches df e.matType recKind).length = 1 ∧
  (List.indexOf? chanName
    ((schemaMatches df e.matType recKind).getD 0 default).outsStr).isSome = true

instance (df : List SchemaRow) (recKind chanName : String) (e : Ele) :
    Decidable (schemaOk df recKind chanName e) := by
  unfold schemaOk; infer_instance

/-- The channel-block width `len(outs)` of an element's schema row. -/
def schemaWidth (df : List SchemaRow) (recKind : String) (e : Ele) : Nat :=
  ((schemaMatches df e.matType recKind).getD 0 default).outsStr.length

/-- The flat row offset `cur_ind` accumulated before element `i`. -/
def blockStart (df : List SchemaRow) (recKind : String) (eles : List Ele) (i : Nat) : Nat :=
  ((eles.take i).map (schemaWidth df recKind)).sum

/-- The within-block index `oind` of the shear channel for an element. -/
def chanIndex (df : List SchemaRow) (recKind chanName : String) (e : Ele) : Nat :=
  (List.indexOf? chanName
    ((schemaMatches df e.matType recKind).getD 0 default).outsStr).getD 0

theorem schemaReduceGo_ok (df : List SchemaRow) (recKind chanName : String) (vals : Mat) :
    ∀ (eles : List Ele) (curInd : Nat),
      (∀ e ∈ eles, schemaOk df recKind chanName e) →
      ∃ out, schemaReduceGo df recKind chanName vals eles curInd = .ok out ∧
        out.length = eles.length ∧
        ∀ i, i < eles.length →
          out.getD i [] = vals.getD (curInd + blockStart df recKind eles i +
            chanIndex df recKind chanName (eles.getD i default)) []
  | [], curInd, _ => ⟨[], rfl, rfl, by intro i hi; simp at hi⟩
  | e :: rest, curInd, hAll => by
      obtain ⟨h1, h2⟩ := hAll e (by simp)
      rcases hio : List.indexOf? chanName
          ((schemaMatches df e.matType recKind).getD 0 default).outsStr with _ | oind
      · rw [hio] at h2
        simp at h2
      · obtain ⟨out', hgo, hlen, hind⟩ := schemaReduceGo_ok df recKind chanName vals rest
          (curInd + ((schemaMatches df e.matType recKind).getD 0 default).outsStr.length)
          (fun e' he' => hAll e' (by simp [he']))
        refine ⟨vals.getD (curInd + oind) [] :: out', ?_, by simp [hlen], ?_⟩
        · simp only [schemaReduceGo]
          rw [if_pos h1]
          simp only [hio, hgo]
        · intro i hi
          cases i with
          | zero =>
              simp only [List.getD_cons_zero, List.getD_cons_zero]
              have hbs : blockStart df recKind (e :: rest) 0 = 0 := by
                simp [blockStart]
              have hci : chanIndex df recKind chanName e = oind := by
                unfold chanIndex
                rw [hio]
                rfl
              rw [hbs, hci]
              simp
          | succ i =>
              have hrec := hind i (by simpa using Nat.lt_of_succ_lt_succ hi)
              simp only [List.getD_cons_succ]
              rw [hrec]
              have hbs : blockStart df recKind (e :: rest) (i + 1) =
                  schemaWidth df recKind e + blockStart df recKind rest i := by
                simp [blockStart, schemaWidth, List.take_cons]
              rw [hbs]
              congr 1
              simp only [schemaWidth]
              omega

theorem schemaReduceGo_error (df : List SchemaRow) (recKind chanName : String) (vals : Mat) :
    ∀ (pre : List Ele) (e : Ele) (post : List Ele) (curInd : Nat),
      (∀ e' ∈ pre, schemaOk df recKind chanName e') →
      (schemaMatches df e.matType recKind).length ≠ 1 →
      schemaReduceGo df recKind chanName vals (pre ++ e :: post) curInd =
        .error "SchemaLookupError"
  | [], e, post, curInd, _, hbad => by
      simp only [List.nil_append, schemaReduceGo]
      rw [if_neg hbad]
  | e0 :: pre, e, post, curInd, hpre, hbad => by
      obtain ⟨h1, h2⟩ := hpre e0 (by simp)
      rcases hio : List.indexOf? chanName
          ((schemaMatches df e0.matType recKind).getD 0 default).outsStr with _ | oind
      · rw [hio] at h2
        simp at h2
      · have ih := schemaReduceGo_error df recKind chanName vals pre e post
          (curInd + ((schemaMatches df e0.matType recKind).getD 0 default).outsStr.length)
          (fun e' he' => hpre e' (by simp [he'])) hbad
        simp only [List.cons_append, schemaReduceGo]
        rw [if_pos h1]
        simp only [hio, List.append_eq, ih]

/-- Claim C6: when reducing batched `'TAU'`/`'STRS'` output, (1) if the schema
lookup yields exactly one row containing the shear channel for every element,
reduction succeeds and selects, for each element in registration order, the
channel at that row's shear-channel index within the element's channel block;
(2) if some element's lookup yields zero or several rows (all earlier
elements being fine), reduction fails with `SchemaLookupError`; and (3) such
a failure is surfaced to the `results_to_dict` caller unchanged. -/
theorem c6_schema_lookup :
    (∀ (df : List SchemaRow) (recKind chanName : String) (vals : Mat) (eles : List Ele),
      (∀ e ∈ eles, schemaOk df recKind chanName e) →
      ∃ out, schemaReduce df recKind chanName eles vals = .ok out ∧
        out.length = eles.length ∧
        ∀ i, i < eles.length →
          out.getD i [] = vals.getD (blockStart df recKind eles i +
            chanIndex df recKind chanName (eles.getD i default)) []) ∧
    (∀ (df : List SchemaRow) (recKind chanName : String) (vals : Mat)
        (pre : List Ele) (e : Ele) (post : List Ele),
      (∀ e' ∈ pre, schemaOk df recKind chanName e') →
      (schemaMatches df e.matType recKind).length ≠ 1 →
      schemaReduce df recKind chanName (pre ++ e :: post) vals =
        .error "SchemaLookupError") ∧
    (∀ (df : List SchemaRow) (otype : String) (spec : OutSpec) (ods : Ods)
        (eles : List Ele) (nodes : List Node) (recDt area : ℚ)
        (cap : Recorder → Mat) (cap1 : Recorder → List ℚ) (r : Recorder) (msg : String),
      (otype = "TAU" ∨ otype = "STRS") →
      List.lookup otype ods = some (.batched r) →
      schemaReduce df (if otype = "TAU" then "stress" else "strain")
        (if otype = "TAU" then "sxy" else "gxy") eles (transposeD (cap r)) = .error msg →
      (resultsToDict df (some [(otype, spec)]) ods eles nodes recDt area cap cap1
        ⟨none, 0⟩).1 = .error msg) := by
  refine ⟨?_, ?_, ?_⟩
  · intro df recKind chanName vals eles hAll
    obtain ⟨out, hgo, hlen, hind⟩ := schemaReduceGo_ok df recKind chanName vals eles 0 hAll
    exact ⟨out, hgo, hlen, fun i hi => by simpa using hind i hi⟩
  · intro df recKind chanName vals pre e post hpre hbad
    exact schemaReduceGo_error df recKind chanName vals pre e post 0 hpre hbad
  · intro df otype spec ods eles nodes recDt area cap cap1 r msg hot hlook hsr
    have hitem : reduceItem df ods eles nodes area cap cap1 otype = (some msg, none, 1) := by
      unfold reduceItem
      rw [hlook]
      rcases hot with h | h <;> subst h <;> simp only [if_pos, reduceCtorEq] <;>
        simp_all
    unfold resultsToDict rawReduce rawItems
    simp only [reduceLoop, hitem]

/-- Witness for `c6_schema_lookup`: a one-row schema table with a matching
element (success path), an element type absent from the table (failure path),
and the failure surfaced through `results_to_dict` on an empty table. -/
theorem c6_witness :
    (∃ out, schemaReduce [⟨"pimy", "PlaneStrain", "stress", ["sxx", "syy", "sxy", "p"]⟩]
        "stress" "sxy" [⟨"pimy", true⟩] [[1], [2], [3], [4]] = .ok out ∧
      out.length = [(⟨"pimy", true⟩ : Ele)].length ∧
      ∀ i, i < [(⟨"pimy", true⟩ : Ele)].length →
        out.getD i [] = ([[1], [2], [3], [4]] : Mat).getD
          (blockStart [⟨"pimy", "PlaneStrain", "stress", ["sxx", "syy", "sxy", "p"]⟩]
              "stress" [⟨"pimy", true⟩] i +
            chanIndex [⟨"pimy", "PlaneStrain", "stress", ["sxx", "syy", "sxy", "p"]⟩]
              "stress" "sxy" ([(⟨"pimy", true⟩ : Ele)].getD i default)) []) ∧
    schemaReduce [⟨"pimy", "PlaneStrain", "stress", ["sxx", "syy", "sxy", "p"]⟩]
        "stress" "sxy" ([⟨"pimy", true⟩] ++ ⟨"granite", true⟩ :: []) [[1], [2], [3], [4]] =
      .error "SchemaLookupError" ∧
    (resultsToDict [] (some [("TAU", OutSpec.all)])
        [("TAU", OdsEntry.batched (Recorder.elementsToArray [⟨"pimy", true⟩] "stress"))]
        [⟨"pimy", true⟩] [] 1 1 (fun _ => [[1], [2], [3], [4]]) (fun _ => [])
        ⟨none, 0⟩).1 = .error "SchemaLookupError" :=
  ⟨c6_schema_lookup.1 [⟨"pimy", "PlaneStrain", "stress", ["sxx", "syy", "sxy", "p"]⟩]
      "stress" "sxy" [[1], [2], [3], [4]] [⟨"pimy", true⟩] (by decide),
   c6_schema_lookup.2.1 [⟨"pimy", "PlaneStrain", "stress", ["sxx", "syy", "sxy", "p"]⟩]
      "stress" "sxy" [[1], [2], [3], [4]] [⟨"pimy", true⟩] ⟨"granite", true⟩ []
      (by decide) (by decide),
   c6_schema_lookup.2.2 [] "TAU" OutSpec.all
      [("TAU", OdsEntry.batched (Recorder.elementsToArray [⟨"pimy", true⟩] "stress"))]
      [⟨"pimy", true⟩] [] 1 1 (fun _ => [[1], [2], [3], [4]]) (fun _ => [])
      (Recorder.elementsToArray [⟨"pimy", true⟩] "stress") "SchemaLookupError"
      (Or.inl rfl) (by rfl) (by rfl)⟩

/-! ## Claim C9 -/

theorem transposeD_column (l : List ℚ) (hl : l ≠ []) :
    transposeD (l.map (fun v => [v])) = [l] := by
  unfold transposeD
  cases l with
  | nil => exact absurd rfl hl
  | cons v vs =>
      simp [List.range_succ, List.map_map, Function.comp]
      exact (List.map_congr_left fun a _ => rfl).trans (List.map_id vs)

theorem timeArr_length (n : Nat) (recDt : ℚ) : (timeArr n recDt).length = n := by
  rw [timeArr, List.length_map, List.length_range]

/-- Claim C9: if, during the dynamic stage, a full analysis step fails
(`an s0 1 dt` truthy) and the retry of the same interval with ten substeps of
one-tenth size (`an s1 10 (dt / 10)`) also fails, the stepping loop
terminates immediately in the post-retry state `s2` regardless of the time
remaining, the reducer still runs, and the resulting partial `'time'` array
has exactly as many entries as samples were captured by the completed steps
(`s2.samples`).  The external solver is abstracted as the step oracle `an`;
`capOf` says what the batched acceleration recorder has captured in a given
solver state. -/
theorem c9_substep_retry_and_partial_results
    (an : SolSt → Nat → ℚ → Bool × SolSt) (tEnd dt recDt area : ℚ) (fuel : Nat)
    (s0 s1 s2 : SolSt) (sn : List (Node × Node)) (eles : List Ele) (df : List SchemaRow)
    (capOf : SolSt → Recorder → Mat) (cap1Of : SolSt → Recorder → List ℚ)
    (htime : s0.time < tEnd)
    (h1 : an s0 1 dt = (true, s1))
    (h2 : an s1 10 (dt / 10) = (true, s2))
    (hcap : capOf s2 (Recorder.nodesToArray (sn.map (fun p => p.1)) "accel") =
      s2.samples.map (fun v => [v]))
    (hne : s2.samples ≠ []) :
    dynLoop an tEnd dt (fuel + 1) s0 = s2 ∧
    execDynReduce an [("ACCX", OutSpec.all)] sn eles df tEnd dt recDt area (fuel + 1) s0
        capOf cap1Of =
      .ok (s2, (none,
        [("ACCX", OVal.arr2 [s2.samples]),
         ("time", OVal.arr1 (timeArr s2.samples.length recDt))], 1)) ∧
    (timeArr s2.samples.length recDt).length = s2.samples.length := by
  have hloop : dynLoop an tEnd dt (fuel + 1) s0 = s2 := by
    simp [dynLoop, htime, h1, h2]
  refine ⟨hloop, ?_, timeArr_length _ _⟩
  have hsr : startRecorders [("ACCX", OutSpec.all)] sn eles =
      .ok ([("ACCX", OdsEntry.batched
              (Recorder.nodesToArray (sn.map (fun p => p.1)) "accel"))],
           [Recorder.nodesToArray (sn.map (fun p => p.1)) "accel"]) := by
    simp [startRecorders, List.foldlM_cons, List.foldlM_nil, srStep, dictSet]
  unfold execDynReduce
  rw [hsr]
  simp only [Except.bind, Bind.bind, hloop]
  have hitem : reduceItem df
      [("ACCX", OdsEntry.batched (Recorder.nodesToArray (sn.map (fun p => p.1)) "accel"))]
      eles (sn.map (fun p => p.1)) area (capOf s2) (cap1Of s2) "ACCX" =
      (none, some (.arr2 [s2.samples]), 1) := by
    unfold reduceItem
    simp only [List.lookup, beq_self_eq_true, if_pos]
    simp only [hcap, transposeD_column s2.samples hne]
    rfl
  have hraw : rawReduce df (some [("ACCX", OutSpec.all)])
      [("ACCX", OdsEntry.batched (Recorder.nodesToArray (sn.map (fun p => p.1)) "accel"))]
      eles (sn.map (fun p => p.1)) recDt area (capOf s2) (cap1Of s2) =
      (none,
        [("ACCX", OVal.arr2 [s2.samples]),
         ("time", OVal.arr1 (timeArr s2.samples.length recDt))], 1) := by
    unfold rawReduce rawItems
    simp only [List.map_cons, List.map_nil, reduceLoop, hitem, Nat.zero_add]
    unfold addTime
    simp only [List.lookup, beq_self_eq_true, if_pos, dictSet]
    rfl
  rw [hraw]
  rfl

/-- Witness for `c9_substep_retry_and_partial_results`: a concrete oracle
that fails every step, with one sample captured before the failure. -/
theorem c9_witness :
    dynLoop (fun s _ _ => (true, ⟨s.time, s.samples ++ [5]⟩)) 1 (1/10) (0 + 1) ⟨0, [1]⟩ =
      (⟨0, [1, 5, 5]⟩ : SolSt) ∧
    execDynReduce (fun s _ _ => (true, ⟨s.time, s.samples ++ [5]⟩)) [("ACCX", OutSpec.all)]
        snFix elesFix [] 1 (1/10) 1 1 (0 + 1) ⟨0, [1]⟩
        (fun s _ => s.samples.map (fun v => [v])) (fun _ _ => []) =
      .ok (⟨0, [1, 5, 5]⟩, (none,
        [("ACCX", OVal.arr2 [[1, 5, 5]]),
         ("time", OVal.arr1 (timeArr ([(1 : ℚ), 5, 5]).length 1))], 1)) ∧
    (timeArr ([(1 : ℚ), 5, 5]).length 1).length = ([(1 : ℚ), 5, 5]).length :=
  c9_substep_retry_and_partial_results
    (fun s _ _ => (true, ⟨s.time, s.samples ++ [5]⟩)) 1 (1/10) 1 1 0
    ⟨0, [1]⟩ ⟨0, [1, 5]⟩ ⟨0, [1, 5, 5]⟩ snFix elesFix []
    (fun s _ => s.samples.map (fun v => [v])) (fun _ _ => [])
    (by norm_num) rfl rfl rfl (by decide)

end O3Soil
